import Mathlib

/-! Verification of the Ontime project-file management service
(route handlers for create / rename / duplicate / delete / load /
download / patch / list / info).

Filenames and message texts are modelled as lists of characters
(`Name := List Char`); machine strings of the source correspond to
`Name` values, and `String.toList` is used to spell literals.
The route-handler module is embedded faithfully from the source;
collaborators that the handlers import (filename policy, project
service, application state) are modelled from the specification
where their source is not part of this excerpt and are marked as
such in their doc comments. -/

namespace Ontime

abbrev Name := List Char

def jsonExt : Name := ".json".toList

/-- Modelled from the spec: `ensureExtension(name)` — the source's
`ensureJsonExtension` from `utils/fileManagement` (not part of this
excerpt) appends the canonical `.json` extension if missing. -/
def ensureJsonExtension (x : Name) : Name :=
  if jsonExt <:+ x then x else x ++ jsonExt

/-! Decimal rendering of counters.  The disambiguating suffix of
generated filenames contains a decimal counter, written with the
runtime's `Nat.repr`.  We prove that rendering injective so distinct
counters give distinct candidate filenames. -/

/-- Decimal digit characters of a natural number, most significant
first: the reference recursion that `Nat.toDigitsCore` implements
with fuel. -/
def decDigits (n : Nat) : List Char :=
  if _h : n < 10 then [Nat.digitChar n]
  else decDigits (n / 10) ++ [Nat.digitChar (n % 10)]
termination_by n
decreasing_by exact Nat.div_lt_self (by omega) (by omega)

/-- Numeric value of a decimal digit character. -/
def charVal (c : Char) : Nat := c.toNat - 48

theorem charVal_digitChar : ∀ d < 10, charVal (Nat.digitChar d) = d := by decide

/-- Value of a decimal digit string, folded onto an accumulator. -/
def valFrom (a : Nat) (l : List Char) : Nat :=
  l.foldl (fun x c => 10 * x + charVal c) a

theorem valFrom_append (a : Nat) (l₁ l₂ : List Char) :
    valFrom a (l₁ ++ l₂) = valFrom (valFrom a l₁) l₂ := by
  simp [valFrom, List.foldl_append]

theorem valFrom_decDigits (n : Nat) :
    ∀ a, valFrom a (decDigits n) = a * 10 ^ (decDigits n).length + n := by
  induction n using Nat.strong_induction_on with
  | _ n ih =>
    intro a
    by_cases h : n < 10
    · rw [decDigits, dif_pos h]
      simp only [valFrom, List.foldl_cons, List.foldl_nil, List.length_singleton,
        charVal_digitChar n h, pow_one]
      ring
    · rw [decDigits, dif_neg h]
      have hlt : n / 10 < n := Nat.div_lt_self (by omega) (by omega)
      rw [valFrom_append, ih (n / 10) hlt a]
      have hm : n % 10 < 10 := Nat.mod_lt _ (by omega)
      simp only [valFrom, List.foldl_cons, List.foldl_nil,
        charVal_digitChar (n % 10) hm, List.length_append, List.length_singleton]
      have hdm : 10 * (n / 10) + n % 10 = n := Nat.div_add_mod n 10
      calc 10 * (a * 10 ^ (decDigits (n / 10)).length + n / 10) + n % 10
          = a * 10 ^ ((decDigits (n / 10)).length + 1) + (10 * (n / 10) + n % 10) := by
            ring
        _ = a * 10 ^ ((decDigits (n / 10)).length + 1) + n := by rw [hdm]

theorem decDigits_injective (m n : Nat) (h : decDigits m = decDigits n) : m = n := by
  have h1 := valFrom_decDigits m 0
  have h2 := valFrom_decDigits n 0
  rw [h] at h1
  omega

theorem toDigitsCore_eq_decDigits (fuel : Nat) :
    ∀ n ds, n < fuel → Nat.toDigitsCore 10 fuel n ds = decDigits n ++ ds := by
  induction fuel with
  | zero => intro n ds h; omega
  | succ fuel ih =>
    intro n ds h
    by_cases h10 : n / 10 = 0
    · have hn : n < 10 := by omega
      show (if n / 10 = 0 then Nat.digitChar (n % 10) :: ds
            else Nat.toDigitsCore 10 fuel (n / 10) (Nat.digitChar (n % 10) :: ds)) =
          decDigits n ++ ds
      rw [if_pos h10, decDigits, dif_pos hn, Nat.mod_eq_of_lt hn]
      rfl
    · have hge : 10 ≤ n := by omega
      show (if n / 10 = 0 then Nat.digitChar (n % 10) :: ds
            else Nat.toDigitsCore 10 fuel (n / 10) (Nat.digitChar (n % 10) :: ds)) =
          decDigits n ++ ds
      rw [if_neg h10]
      have hlt : n / 10 < fuel := by omega
      rw [ih (n / 10) (Nat.digitChar (n % 10) :: ds) hlt]
      have hnot : ¬ n < 10 := by omega
      conv_rhs => rw [decDigits, dif_neg hnot]
      simp

theorem toDigits_ten_injective (m n : Nat) (h : Nat.toDigits 10 m = Nat.toDigits 10 n) :
    m = n := by
  unfold Nat.toDigits at h
  rw [toDigitsCore_eq_decDigits (m + 1) m [] (by omega),
      toDigitsCore_eq_decDigits (n + 1) n [] (by omega)] at h
  simp at h
  exact decDigits_injective m n h

theorem reprChars_injective (m n : Nat) (h : (Nat.repr m).toList = (Nat.repr n).toList) :
    m = n := by
  apply toDigits_ten_injective
  simpa [Nat.repr, List.asString, String.toList] using h

/-! Unique filename generation. -/

/-- Characters of the disambiguating counter suffix, a space followed
by the decimal counter in parentheses. -/
def suffixTag (k : Nat) : Name := ' ' :: '(' :: (Nat.repr k).toList ++ [')']

/-- The k-th candidate filename tried by the generator: the requested
name itself for k = 0, then base-plus-counter-suffix. -/
def candidate (base ext : Name) (k : Nat) : Name :=
  if k = 0 then base ++ ext else base ++ suffixTag k ++ ext

theorem suffixTag_length (k : Nat) : 3 ≤ (suffixTag k).length := by
  simp [suffixTag]

theorem candidate_injective (base ext : Name) (k j : Nat)
    (h : candidate base ext k = candidate base ext j) : k = j := by
  unfold candidate at h
  by_cases hk : k = 0 <;> by_cases hj : j = 0
  · omega
  · rw [if_pos hk, if_neg hj] at h
    have hlen := congrArg List.length h
    have := suffixTag_length j
    simp only [List.length_append] at hlen
    omega
  · rw [if_neg hk, if_pos hj] at h
    have hlen := congrArg List.length h
    have := suffixTag_length k
    simp only [List.length_append] at hlen
    omega
  · rw [if_neg hk, if_neg hj] at h
    have h1 : base ++ suffixTag k = base ++ suffixTag j := List.append_cancel_right h
    have h2 : suffixTag k = suffixTag j := List.append_cancel_left h1
    unfold suffixTag at h2
    injection h2 with _ h2
    injection h2 with _ h2
    exact reprChars_injective k j (List.append_cancel_right h2)

/-- Fuel-bounded search loop of the filename generator: try candidate
`k`, advancing the counter while the candidate collides. -/
def genLoop (existing : List Name) (base ext : Name) : Nat → Nat → Name
  | k, 0 => candidate base ext k
  | k, fuel + 1 =>
      if candidate base ext k ∈ existing then genLoop existing base ext (k + 1) fuel
      else candidate base ext k

/-- Splits a filename into base name and `.json` extension. -/
def splitJson (name : Name) : Name × Name :=
  if jsonExt <:+ name then (name.take (name.length - 5), jsonExt) else (name, [])

/-- Modelled from the spec: `generateUniqueName(directory, requestedName)` —
the source's `generateUniqueFileName` from `utils/generateUniqueFilename`
(not part of this excerpt): if the requested name collides with an existing
file in the directory, append a disambiguating suffix with an incrementing
counter (`base (1).json`, `base (2).json`, ...) until the name is unique,
never overwriting silently.  One more try than there are existing files
always suffices, so the bounded loop realises the unbounded search. -/
def generateUniqueFileName (existing : List Name) (name : Name) : Name :=
  genLoop existing (splitJson name).1 (splitJson name).2 0 (existing.length + 1)

theorem genLoop_not_mem (existing : List Name) (base ext : Name) :
    ∀ fuel k, (∃ c ∈ (List.range' k fuel).map (candidate base ext), c ∉ existing) →
      genLoop existing base ext k fuel ∉ existing := by
  intro fuel
  induction fuel with
  | zero =>
    intro k h
    simp at h
  | succ fuel ih =>
    intro k h
    show (if candidate base ext k ∈ existing then genLoop existing base ext (k + 1) fuel
          else candidate base ext k) ∉ existing
    by_cases hc : candidate base ext k ∈ existing
    · rw [if_pos hc]
      apply ih (k + 1)
      obtain ⟨c, hcm, hcn⟩ := h
      rw [List.range'_succ, List.map_cons, List.mem_cons] at hcm
      rcases hcm with hce | hcm
      · exact absurd (hce ▸ hc) hcn
      · exact ⟨c, hcm, hcn⟩
    · rw [if_neg hc]
      exact hc

theorem exists_candidate_not_mem (existing : List Name) (base ext : Name) :
    ∃ c ∈ (List.range' 0 (existing.length + 1)).map (candidate base ext),
      c ∉ existing := by
  by_contra hall
  push_neg at hall
  have hnd : ((List.range' 0 (existing.length + 1)).map (candidate base ext)).Nodup :=
    List.Nodup.map (fun k j hkj => candidate_injective base ext k j hkj)
      (List.nodup_range' _ _)
  have hsub : ((List.range' 0 (existing.length + 1)).map (candidate base ext)) ⊆
      existing := fun c hc => hall c hc
  have hle := (List.subperm_of_subset hnd hsub).length_le
  simp at hle

theorem generateUniqueFileName_not_mem (existing : List Name) (name : Name) :
    generateUniqueFileName existing name ∉ existing :=
  genLoop_not_mem existing (splitJson name).1 (splitJson name).2
    (existing.length + 1) 0
    (exists_candidate_not_mem existing (splitJson name).1 (splitJson name).2)

/-! Data model. -/

/-- Project metadata carried by a project file (`ProjectData` of
`ontime-types`). -/
structure ProjectData where
  title : Name
  description : Name
  publicUrl : Name
  publicInfo : Name
  backstageUrl : Name
  backstageInfo : Name
  deriving DecidableEq

/-- The aggregate project model (`DatabaseModel` of `ontime-types`).
Payloads other than the project metadata are opaque to the handlers
and are modelled as numeric blobs. -/
structure DatabaseModel where
  rundown : Nat
  project : ProjectData
  settings : Nat
  viewSettings : Nat
  urlPresets : Nat
  customFields : Nat
  osc : Nat
  http : Nat
  deriving DecidableEq

/-- Body of a patch request: every top-level field of the model is
independently optional. -/
structure PatchBody where
  rundown : Option Nat
  project : Option ProjectData
  settings : Option Nat
  viewSettings : Option Nat
  urlPresets : Option Nat
  customFields : Option Nat
  osc : Option Nat
  http : Option Nat
  deriving DecidableEq

/-- Body of a create request. -/
structure CreateBody where
  title : Option Name
  description : Option Name
  publicUrl : Option Name
  publicInfo : Option Name
  backstageUrl : Option Name
  backstageInfo : Option Name
  deriving DecidableEq

/-- The application state tracked by `AppStateService`. -/
structure AppState where
  lastLoadedProject : Option Name
  deriving DecidableEq

/-- The state a request acts on: the projects directory, the db
directory (each a set of filenames), the in-memory active model and
the application state. -/
structure Store where
  projectFiles : List Name
  dbFiles : List Name
  activeModel : DatabaseModel
  appState : AppState
  deriving DecidableEq

/-- The two directories fixed by `setup`. -/
inductive Dir
  | db
  | projects
  deriving DecidableEq

/-- A resolved path: a directory and a filename inside it. -/
structure Path where
  dir : Dir
  file : Name
  deriving DecidableEq

def resolveDbDirectory : Dir := Dir.db

def resolveProjectsDirectory : Dir := Dir.projects

def joinPath (d : Dir) (f : Name) : Path := ⟨d, f⟩

/-- Existence of a path on disk, per directory. -/
def existsSync (s : Store) (p : Path) : Bool :=
  match p.dir with
  | Dir.db => decide (p.file ∈ s.dbFiles)
  | Dir.projects => decide (p.file ∈ s.projectFiles)

/-- A raised error; `getErrorMessage` extracts its message. -/
structure Err where
  msg : Name
  deriving DecidableEq

def getErrorMessage (e : Err) : Name := e.msg

/-- Response bodies the handlers send. -/
inductive Body
  | message (m : Name)
  | filenameBody (f : Name)
  | modelBody (m : DatabaseModel)
  | infoBody (i : Nat)
  | listBody (l : List Name)
  | fileBody (p : Path) (n : Name)
  deriving DecidableEq

/-- An HTTP response: status code and body. -/
structure Response where
  status : Nat
  body : Body
  deriving DecidableEq

/-- Trace of project-service calls a handler performed, in order. -/
inductive SCall
  | validate (filename newFilename : Option Name)
  | applyData (p : PatchBody)
  | applyFile (f : Name)
  | createFile (f : Name) (d : ProjectData)
  | deleteFile (f : Name)
  | renameFile (oldName newName : Name)
  | duplicateFile (oldName newName : Name)
  | handleUpload (path f : Name)
  deriving DecidableEq

/-- Outcome of a handler run: the response sent, the state after the
run, and the trace of service calls made. -/
structure HResult where
  resp : Response
  store : Store
  calls : List SCall
  deriving DecidableEq

/-! Message texts. -/

def msgNoField : Name := "No field found to patch".toList

def msgTitleExists : Name := "Project with title already exists".toList

def msgFileNotFound : Name := "File not found".toList

def msgCannotDelete : Name := "Cannot delete currently loaded project".toList

def msgProject : Name := "Project ".toList

def msgNotFoundDot : Name := " not found.".toList

def msgLoaded : Name := "Loaded project ".toList

def msgDeleted : Name := "Deleted project ".toList

def msgRenamedA : Name := "Renamed project ".toList

def msgDuplicatedA : Name := "Duplicated project ".toList

def msgTo : Name := " to ".toList

def msgCommaSep : Name := ", ".toList

def msgSourceMissing : Name := "Project file does not exist".toList

def msgTargetExists : Name := "New filename already exists".toList

def msgConflict : Name := "Filename already exists".toList

def msgNotFoundErr : Name := "Project file not found".toList

def msgMergeInvalid : Name := "Merged model is invalid".toList

def untitledName : Name := "Untitled".toList

/-! Collaborating services, modelled from the specification where the
source is not part of this excerpt. -/

/-- Modelled from the spec: `failEmptyObjects` from `utils/routerUtils`
(not part of this excerpt) detects an empty request body — a patch body
carrying none of its optional fields. -/
def failEmptyObjects (b : PatchBody) : Bool :=
  b.rundown.isNone && b.project.isNone && b.settings.isNone && b.viewSettings.isNone &&
    b.urlPresets.isNone && b.customFields.isNone && b.osc.isNone && b.http.isNone

/-- Modelled from the spec: `validate(operation)` of the project service
(`validateProjectFiles`, not part of this excerpt) checks that the source
file exists and that the target filename does not already exist, returning
a list of human-readable error strings (empty means valid). -/
def validateProjectFiles (files : List Name) (filename newFilename : Option Name) :
    List Name :=
  (match filename with
    | none => []
    | some f => if f ∈ files then [] else [msgSourceMissing]) ++
  (match newFilename with
    | none => []
    | some f => if f ∈ files then [msgTargetExists] else [])

/-- Modelled from the spec: `create(filename, metadata)` of the project
service writes a new project file, failing with a conflict error if the
filename exists. -/
def createProjectFileSvc (files : List Name) (filename : Name) (_data : ProjectData) :
    Except Err (List Name) :=
  if filename ∈ files then Except.error ⟨msgConflict⟩
  else Except.ok (filename :: files)

/-- Modelled from the spec: `delete(filename)` of the project service
removes the file, failing with a not-found error if absent. -/
def deleteProjectFileSvc (files : List Name) (filename : Name) :
    Except Err (List Name) :=
  if filename ∈ files then Except.ok (files.erase filename)
  else Except.error ⟨msgNotFoundErr⟩

/-- Modelled from the spec: `rename(oldName, newName)` of the project
service, a filesystem rename failing with a conflict error unless the
source exists and the target is fresh. -/
def renameProjectFileSvc (files : List Name) (oldName newName : Name) :
    Except Err (List Name) :=
  if oldName ∈ files ∧ newName ∉ files then Except.ok (newName :: files.erase oldName)
  else Except.error ⟨msgConflict⟩

/-- Modelled from the spec: `duplicate(oldName, newName)` of the project
service, a filesystem copy failing with a conflict error unless the
source exists and the target is fresh. -/
def duplicateProjectFileSvc (files : List Name) (oldName newName : Name) :
    Except Err (List Name) :=
  if oldName ∈ files ∧ newName ∉ files then Except.ok (newName :: files)
  else Except.error ⟨msgConflict⟩

/-- Merge of a partial patch into the active model: only present
top-level fields replace the current ones, absent fields are untouched. -/
def mergePatch (p : PatchBody) (m : DatabaseModel) : DatabaseModel :=
  { rundown := p.rundown.getD m.rundown
    project := p.project.getD m.project
    settings := p.settings.getD m.settings
    viewSettings := p.viewSettings.getD m.viewSettings
    urlPresets := p.urlPresets.getD m.urlPresets
    customFields := p.customFields.getD m.customFields
    osc := p.osc.getD m.osc
    http := p.http.getD m.http }

/-- Modelled from the spec: `applyPatch(partialModel)`
(`projectService.applyDataModel`, not part of this excerpt) merges only
the present top-level fields into the active model and fails with a
validation error when the merged result is structurally invalid; the
structural validity check is abstract and passed in as `valid`. -/
def applyDataModel (valid : DatabaseModel → Bool) (p : PatchBody) (m : DatabaseModel) :
    Except Err DatabaseModel :=
  if valid (mergePatch p m) then Except.ok (mergePatch p m)
  else Except.error ⟨msgMergeInvalid⟩

/-- Modelled from the spec: `applyFile(filename, options)`
(`projectService.applyProjectFile`, not part of this excerpt) loads and
parses the file into the in-memory active model and records the load in
the application state; a parse or apply failure raises and leaves the
prior state untouched.  Parsing of file contents is abstract and passed
in as `parse`. -/
def applyProjectFile (parse : Name → Except Err DatabaseModel) (filename : Name)
    (s : Store) : Except Err Store :=
  match parse filename with
  | Except.error e => Except.error e
  | Except.ok m =>
      Except.ok { s with activeModel := m, appState := ⟨some filename⟩ }

/-- Modelled from the spec: `doesProjectExist` of the project service —
whether the named file is in the projects directory. -/
def doesProjectExist (s : Store) (filename : Name) : Bool :=
  decide (filename ∈ s.projectFiles)

/-- Modelled from the spec: `getProjectTitle` of the project service —
the title of the currently loaded project. -/
def getProjectTitle (s : Store) : Name := s.activeModel.project.title

/-- `title || 'Untitled'`: the request title unless absent or empty. -/
def titleOrUntitled (t : Option Name) : Name :=
  match t with
  | none => untitledName
  | some f => if f = [] then untitledName else f

/-- The `ProjectData` object the create handler builds from its request
body, defaulting each absent field to the empty string. -/
def newProjectDataOf (b : CreateBody) : ProjectData :=
  { title := b.title.getD []
    description := b.description.getD []
    publicUrl := b.publicUrl.getD []
    publicInfo := b.publicInfo.getD []
    backstageUrl := b.backstageUrl.getD []
    backstageInfo := b.backstageInfo.getD [] }

/-! Route handlers, embedded from the source controller.  Each handler
maps its request and the current store to an `Except Err HResult`: an
`Except.ok` holds the response sent, the store after the run and the
trace of project-service calls; an `Except.error` is an exception that
escaped the handler uncaught.  A `try/catch` of the source appears as
the match arm turning a service error into an error response. -/

/-- Handler `patchPartialProjectFile`: reject empty bodies with 400,
otherwise apply the patch, answering 200 with the new model or 400
with the error message. -/
def patchPartialProjectFile (valid : DatabaseModel → Bool) (s : Store)
    (body : PatchBody) : Except Err HResult :=
  if failEmptyObjects body then
    Except.ok ⟨⟨400, Body.message msgNoField⟩, s, []⟩
  else
    match applyDataModel valid body s.activeModel with
    | Except.ok newData =>
        Except.ok ⟨⟨200, Body.modelBody newData⟩,
          { s with activeModel := newData }, [SCall.applyData body]⟩
    | Except.error e =>
        Except.ok ⟨⟨400, Body.message (getErrorMessage e)⟩, s,
          [SCall.applyData body]⟩

/-- Handler `createProjectFile`: normalize the title to a `.json`
filename, make it unique, validate, then create the file. -/
def createProjectFile (s : Store) (b : CreateBody) : Except Err HResult :=
  let originalFilename := ensureJsonExtension (titleOrUntitled b.title)
  let filename := generateUniqueFileName s.projectFiles originalFilename
  let errors := validateProjectFiles s.projectFiles none (some filename)
  if errors.isEmpty then
    match createProjectFileSvc s.projectFiles filename (newProjectDataOf b) with
    | Except.ok files =>
        Except.ok ⟨⟨200, Body.filenameBody filename⟩,
          { s with projectFiles := files },
          [SCall.validate none (some filename),
           SCall.createFile filename (newProjectDataOf b)]⟩
    | Except.error e =>
        Except.ok ⟨⟨500, Body.message (getErrorMessage e)⟩, s,
          [SCall.validate none (some filename),
           SCall.createFile filename (newProjectDataOf b)]⟩
  else
    Except.ok ⟨⟨409, Body.message msgTitleExists⟩, s,
      [SCall.validate none (some filename)]⟩

/-- The file a download request resolves to (source `selectProjectFile`):
the given name with the `.json` extension ensured, or the loaded
project's title when no name is given; always joined under the db
directory (the source binds `resolveDbDirectory` to its local
`projectsDirectory`). -/
def selectProjectFile (s : Store) (fileName : Option Name) : Path × Name :=
  let fileToDownload :=
    match fileName with
    | none => getProjectTitle s
    | some f => if f = [] then getProjectTitle s else ensureJsonExtension f
  (joinPath resolveDbDirectory fileToDownload, fileToDownload)

/-- Handler `projectDownload`: 404 when the resolved path does not
exist, otherwise stream the file, answering 500 with a message if the
download callback reports an error (`dl`). -/
def projectDownload (dl : Except Err Unit) (s : Store) (fileName : Option Name) :
    Except Err HResult :=
  let sel := selectProjectFile s fileName
  if existsSync s sel.1 then
    match dl with
    | Except.ok _ => Except.ok ⟨⟨200, Body.fileBody sel.1 sel.2⟩, s, []⟩
    | Except.error e =>
        Except.ok ⟨⟨500, Body.message (getErrorMessage e)⟩, s, []⟩
  else
    Except.ok ⟨⟨404, Body.message (msgProject ++ sel.2 ++ msgNotFoundDot)⟩, s, []⟩

/-- Handler `postProjectFile` (upload): 400 when no file was uploaded,
otherwise move the upload into place and apply it, answering 201 or
400 with the error message. -/
def postProjectFile (parse : Name → Except Err DatabaseModel) (s : Store)
    (file : Option (Name × Name)) : Except Err HResult :=
  match file with
  | none => Except.ok ⟨⟨400, Body.message msgFileNotFound⟩, s, []⟩
  | some (path, filename) =>
      let s1 := { s with projectFiles := filename :: s.projectFiles }
      match applyProjectFile parse filename s1 with
      | Except.ok s2 =>
          Except.ok ⟨⟨201, Body.message (msgLoaded ++ filename)⟩, s2,
            [SCall.handleUpload path filename, SCall.applyFile filename]⟩
      | Except.error e =>
          Except.ok ⟨⟨400, Body.message (getErrorMessage e)⟩, s1,
            [SCall.handleUpload path filename, SCall.applyFile filename]⟩

/-- Handler `listProjects`: 200 with the list, 500 with the message on
a read failure (`listSvc` is the outcome of `getProjectList`). -/
def listProjects (listSvc : Except Err (List Name)) (s : Store) :
    Except Err HResult :=
  match listSvc with
  | Except.ok data => Except.ok ⟨⟨200, Body.listBody data⟩, s, []⟩
  | Except.error e =>
      Except.ok ⟨⟨500, Body.message (getErrorMessage e)⟩, s, []⟩

/-- Handler `loadProject`: 404 when the named file does not exist,
otherwise apply it, answering 201 or 500 with the error message. -/
def loadProject (parse : Name → Except Err DatabaseModel) (s : Store)
    (filename : Name) : Except Err HResult :=
  if doesProjectExist s filename then
    match applyProjectFile parse filename s with
    | Except.ok s2 =>
        Except.ok ⟨⟨201, Body.message (msgLoaded ++ filename)⟩, s2,
          [SCall.applyFile filename]⟩
    | Except.error e =>
        Except.ok ⟨⟨500, Body.message (getErrorMessage e)⟩, s,
          [SCall.applyFile filename]⟩
  else
    Except.ok ⟨⟨404, Body.message msgFileNotFound⟩, s, []⟩

/-- Handler `duplicateProjectFile`: validate source and target, 409
with the joined error list on validation errors, otherwise duplicate. -/
def duplicateProjectFile (s : Store) (filename newFilename : Name) :
    Except Err HResult :=
  let errors := validateProjectFiles s.projectFiles (some filename) (some newFilename)
  if errors.isEmpty then
    match duplicateProjectFileSvc s.projectFiles filename newFilename with
    | Except.ok files =>
        Except.ok ⟨⟨201, Body.message
            (msgDuplicatedA ++ filename ++ msgTo ++ newFilename)⟩,
          { s with projectFiles := files },
          [SCall.validate (some filename) (some newFilename),
           SCall.duplicateFile filename newFilename]⟩
    | Except.error e =>
        Except.ok ⟨⟨500, Body.message (getErrorMessage e)⟩, s,
          [SCall.validate (some filename) (some newFilename),
           SCall.duplicateFile filename newFilename]⟩
  else
    Except.ok ⟨⟨409, Body.message (List.intercalate msgCommaSep errors)⟩, s,
      [SCall.validate (some filename) (some newFilename)]⟩

/-- Handler `renameProjectFile`: validate source and target, 409 with
the joined error list on validation errors, otherwise rename. -/
def renameProjectFile (s : Store) (filename newFilename : Name) :
    Except Err HResult :=
  let errors := validateProjectFiles s.projectFiles (some filename) (some newFilename)
  if errors.isEmpty then
    match renameProjectFileSvc s.projectFiles filename newFilename with
    | Except.ok files =>
        Except.ok ⟨⟨201, Body.message
            (msgRenamedA ++ filename ++ msgTo ++ newFilename)⟩,
          { s with projectFiles := files },
          [SCall.validate (some filename) (some newFilename),
           SCall.renameFile filename newFilename]⟩
    | Except.error e =>
        Except.ok ⟨⟨500, Body.message (getErrorMessage e)⟩, s,
          [SCall.validate (some filename) (some newFilename),
           SCall.renameFile filename newFilename]⟩
  else
    Except.ok ⟨⟨409, Body.message (List.intercalate msgCommaSep errors)⟩, s,
      [SCall.validate (some filename) (some newFilename)]⟩

/-- Handler `deleteProjectFile`: refuse with 403 to delete the
currently loaded project, then validate (409 on errors) and delete
(204, or 500 on a service failure). -/
def deleteProjectFile (s : Store) (filename : Name) : Except Err HResult :=
  if s.appState.lastLoadedProject = some filename then
    Except.ok ⟨⟨403, Body.message msgCannotDelete⟩, s, []⟩
  else
    let errors := validateProjectFiles s.projectFiles (some filename) none
    if errors.isEmpty then
      match deleteProjectFileSvc s.projectFiles filename with
      | Except.ok files =>
          Except.ok ⟨⟨204, Body.message (msgDeleted ++ filename)⟩,
            { s with projectFiles := files },
            [SCall.validate (some filename) none, SCall.deleteFile filename]⟩
      | Except.error e =>
          Except.ok ⟨⟨500, Body.message (getErrorMessage e)⟩, s,
            [SCall.validate (some filename) none, SCall.deleteFile filename]⟩
    else
      Except.ok ⟨⟨409, Body.message (List.intercalate msgCommaSep errors)⟩, s,
        [SCall.validate (some filename) none]⟩

/-- Handler `getInfo`: awaits the service and answers 200; the source
has no `try/catch`, so a service failure escapes the handler. -/
def getInfo (infoSvc : Except Err Nat) (s : Store) : Except Err HResult :=
  match infoSvc with
  | Except.ok info => Except.ok ⟨⟨200, Body.infoBody info⟩, s, []⟩
  | Except.error e => Except.error e

/-- Whether a handler run ended in an uncaught exception. -/
def escapedError (x : Except Err HResult) : Bool :=
  match x with
  | Except.error _ => true
  | Except.ok _ => false

def isErrorStatus (n : Nat) : Bool := decide (400 ≤ n)

def isMessageBody : Body → Bool
  | Body.message _ => true
  | _ => false

/-- A handler run respects the boundary contract when it produced a
response and every failure status carries a message body. -/
def boundaryOk (x : Except Err HResult) : Bool :=
  match x with
  | Except.error _ => false
  | Except.ok r => !(isErrorStatus r.resp.status) || isMessageBody r.resp.body

/-! Concrete sample data for the scenario instantiations. -/

def nmShowJson : Name := "Show A.json".toList

def nmShowTitle : Name := "Show A".toList

def nmOther : Name := "Other.json".toList

def nmMissing : Name := "Nope.json".toList

def sampleModel : DatabaseModel :=
  ⟨0, ⟨nmShowTitle, [], [], [], [], []⟩, 0, 0, 0, 0, 0, 0⟩

def sampleStore : Store :=
  ⟨[nmShowJson, nmOther], [nmShowJson], sampleModel, ⟨some nmShowJson⟩⟩

def emptyPatch : PatchBody := ⟨none, none, none, none, none, none, none, none⟩

def onePatch : PatchBody := ⟨some 1, none, none, none, none, none, none, none⟩

def emptyCreateBody : CreateBody := ⟨none, none, none, none, none, none⟩

def showCreateBody : CreateBody := ⟨some nmShowTitle, none, none, none, none, none⟩

/-! Claim theorems. -/

/-- C1: a delete request whose filename equals the application state's
`lastLoadedProject` is answered 403, and the handler returns before
`validateProjectFiles` or the delete service is called (empty call
trace), leaving the files and the application state unchanged — this
holds for every store, so for every validation outcome. -/
theorem delete_loaded_project_forbidden (s : Store) (f : Name)
    (h : s.appState.lastLoadedProject = some f) :
    deleteProjectFile s f =
      Except.ok ⟨⟨403, Body.message msgCannotDelete⟩, s, []⟩ := by
  simp [deleteProjectFile, h]

/-- C1 witness: deleting the loaded `Show A.json` of the sample store. -/
theorem delete_loaded_project_forbidden_witness :
    deleteProjectFile sampleStore nmShowJson =
      Except.ok ⟨⟨403, Body.message msgCannotDelete⟩, sampleStore, []⟩ :=
  delete_loaded_project_forbidden sampleStore nmShowJson rfl

/-- C4: a patch request with an empty body is answered 400 and
`applyDataModel` is never called (empty call trace), so the active
model is unchanged. -/
theorem patch_empty_body_400 (valid : DatabaseModel → Bool) (s : Store)
    (b : PatchBody) (h : failEmptyObjects b = true) :
    patchPartialProjectFile valid s b =
      Except.ok ⟨⟨400, Body.message msgNoField⟩, s, []⟩ := by
  simp [patchPartialProjectFile, h]

/-- C4 witness: patching the sample store with the empty body. -/
theorem patch_empty_body_400_witness :
    patchPartialProjectFile (fun _ => true) sampleStore emptyPatch =
      Except.ok ⟨⟨400, Body.message msgNoField⟩, sampleStore, []⟩ :=
  patch_empty_body_400 (fun _ => true) sampleStore emptyPatch rfl

/-- C6: a load request naming a file that is not in the projects
directory is answered 404 and `applyProjectFile` is never called
(empty call trace), so the store — in particular
`lastLoadedProject` — is unchanged. -/
theorem load_missing_project_404 (parse : Name → Except Err DatabaseModel)
    (s : Store) (f : Name) (h : f ∉ s.projectFiles) :
    loadProject parse s f =
      Except.ok ⟨⟨404, Body.message msgFileNotFound⟩, s, []⟩ := by
  simp [loadProject, doesProjectExist, h]

/-- C6 witness: loading a file absent from the sample store. -/
theorem load_missing_project_404_witness :
    loadProject (fun _ => Except.error ⟨msgFileNotFound⟩) sampleStore nmMissing =
      Except.ok ⟨⟨404, Body.message msgFileNotFound⟩, sampleStore, []⟩ :=
  load_missing_project_404 (fun _ => Except.error ⟨msgFileNotFound⟩) sampleStore
    nmMissing (by decide)

/-- C8: `ensureJsonExtension` is idempotent, and it appends the
canonical extension exactly when it is missing. -/
theorem ensureJsonExtension_idempotent (x : Name) :
    ensureJsonExtension (ensureJsonExtension x) = ensureJsonExtension x ∧
    (jsonExt <:+ x → ensureJsonExtension x = x) ∧
    (¬ jsonExt <:+ x → ensureJsonExtension x = x ++ jsonExt) := by
  refine ⟨?_, fun h => by rw [ensureJsonExtension, if_pos h],
    fun h => by rw [ensureJsonExtension, if_neg h]⟩
  by_cases h : jsonExt <:+ x
  · have hx : ensureJsonExtension x = x := by rw [ensureJsonExtension, if_pos h]
    rw [hx, hx]
  · have hx : ensureJsonExtension x = x ++ jsonExt := by
      rw [ensureJsonExtension, if_neg h]
    rw [hx, ensureJsonExtension, if_pos (List.suffix_append x jsonExt)]

/-- C8 witness: idempotence at `Show A`, no-op on a name already
carrying the extension, append on one missing it. -/
theorem ensureJsonExtension_idempotent_witness :
    ensureJsonExtension (ensureJsonExtension nmShowTitle) =
      ensureJsonExtension nmShowTitle ∧
    ensureJsonExtension nmShowJson = nmShowJson ∧
    ensureJsonExtension nmShowTitle = nmShowTitle ++ jsonExt :=
  ⟨(ensureJsonExtension_idempotent nmShowTitle).1,
   (ensureJsonExtension_idempotent nmShowJson).2.1 (by decide),
   (ensureJsonExtension_idempotent nmShowTitle).2.2 (by decide)⟩

/-- C2: a create request whose normalized title collides with an
existing file is answered 200 with a generated filename distinct from
every existing filename, and the store keeps every existing file (the
new file is merely added). -/
theorem create_colliding_title_unique (s : Store) (b : CreateBody)
    (_h : ensureJsonExtension (titleOrUntitled b.title) ∈ s.projectFiles) :
    ∃ fn, fn ∉ s.projectFiles ∧
      createProjectFile s b =
        Except.ok ⟨⟨200, Body.filenameBody fn⟩,
          { s with projectFiles := fn :: s.projectFiles },
          [SCall.validate none (some fn),
           SCall.createFile fn (newProjectDataOf b)]⟩ := by
  have hfn := generateUniqueFileName_not_mem s.projectFiles
    (ensureJsonExtension (titleOrUntitled b.title))
  refine ⟨generateUniqueFileName s.projectFiles
    (ensureJsonExtension (titleOrUntitled b.title)), hfn, ?_⟩
  simp [createProjectFile, validateProjectFiles, createProjectFileSvc, hfn]

/-- C2 witness: creating `Show A` while `Show A.json` exists. -/
theorem create_colliding_title_unique_witness :
    ∃ fn, fn ∉ sampleStore.projectFiles ∧
      createProjectFile sampleStore showCreateBody =
        Except.ok ⟨⟨200, Body.filenameBody fn⟩,
          { sampleStore with projectFiles := fn :: sampleStore.projectFiles },
          [SCall.validate none (some fn),
           SCall.createFile fn (newProjectDataOf showCreateBody)]⟩ :=
  create_colliding_title_unique sampleStore showCreateBody (by decide)

/-- C5: a rename or duplicate request whose target filename already
exists is answered 409 with a message joined from the then non-empty
validation error list, and the rename/duplicate service is never
called (the trace holds only the validation call); the store is
unchanged. -/
theorem rename_duplicate_existing_target_409 (s : Store) (oldName newName : Name)
    (h : newName ∈ s.projectFiles) :
    validateProjectFiles s.projectFiles (some oldName) (some newName) ≠ [] ∧
    renameProjectFile s oldName newName =
      Except.ok ⟨⟨409, Body.message (List.intercalate msgCommaSep
          (validateProjectFiles s.projectFiles (some oldName) (some newName)))⟩, s,
        [SCall.validate (some oldName) (some newName)]⟩ ∧
    duplicateProjectFile s oldName newName =
      Except.ok ⟨⟨409, Body.message (List.intercalate msgCommaSep
          (validateProjectFiles s.projectFiles (some oldName) (some newName)))⟩, s,
        [SCall.validate (some oldName) (some newName)]⟩ := by
  have hne : validateProjectFiles s.projectFiles (some oldName) (some newName) ≠ [] := by
    simp [validateProjectFiles, h]
  have hie : (validateProjectFiles s.projectFiles (some oldName) (some newName)).isEmpty
      = false := by
    cases hval : validateProjectFiles s.projectFiles (some oldName) (some newName) with
    | nil => exact absurd hval hne
    | cons a l => rfl
  exact ⟨hne, by simp [renameProjectFile, hie], by simp [duplicateProjectFile, hie]⟩

/-- C5 witness: renaming and duplicating `Other.json` onto the
existing `Show A.json` in the sample store. -/
theorem rename_duplicate_existing_target_409_witness :
    validateProjectFiles sampleStore.projectFiles (some nmOther) (some nmShowJson) ≠ [] ∧
    renameProjectFile sampleStore nmOther nmShowJson =
      Except.ok ⟨⟨409, Body.message (List.intercalate msgCommaSep
          (validateProjectFiles sampleStore.projectFiles (some nmOther) (some nmShowJson)))⟩,
        sampleStore, [SCall.validate (some nmOther) (some nmShowJson)]⟩ ∧
    duplicateProjectFile sampleStore nmOther nmShowJson =
      Except.ok ⟨⟨409, Body.message (List.intercalate msgCommaSep
          (validateProjectFiles sampleStore.projectFiles (some nmOther) (some nmShowJson)))⟩,
        sampleStore, [SCall.validate (some nmOther) (some nmShowJson)]⟩ :=
  rename_duplicate_existing_target_409 sampleStore nmOther nmShowJson (by decide)

/-- C9: a create request without a title (or with an empty one)
derives the filename from the default name `Untitled` with the JSON
extension applied, succeeds with 200, and stores project metadata
whose title is the empty string. -/
theorem create_without_title_untitled (s : Store) (b : CreateBody)
    (h : b.title = none ∨ b.title = some []) :
    (newProjectDataOf b).title = [] ∧
    ∃ fn, fn = generateUniqueFileName s.projectFiles (ensureJsonExtension untitledName) ∧
      createProjectFile s b =
        Except.ok ⟨⟨200, Body.filenameBody fn⟩,
          { s with projectFiles := fn :: s.projectFiles },
          [SCall.validate none (some fn),
           SCall.createFile fn (newProjectDataOf b)]⟩ := by
  have ht : titleOrUntitled b.title = untitledName := by
    rcases h with h | h <;> simp [titleOrUntitled, h]
  constructor
  · rcases h with h | h <;> simp [newProjectDataOf, h]
  · have hfn := generateUniqueFileName_not_mem s.projectFiles
      (ensureJsonExtension untitledName)
    refine ⟨_, rfl, ?_⟩
    simp [createProjectFile, ht, validateProjectFiles, createProjectFileSvc, hfn]

/-- C9 witness: creating with the all-absent body on the sample store. -/
theorem create_without_title_untitled_witness :
    (newProjectDataOf emptyCreateBody).title = [] ∧
    ∃ fn, fn = generateUniqueFileName sampleStore.projectFiles
        (ensureJsonExtension untitledName) ∧
      createProjectFile sampleStore emptyCreateBody =
        Except.ok ⟨⟨200, Body.filenameBody fn⟩,
          { sampleStore with projectFiles := fn :: sampleStore.projectFiles },
          [SCall.validate none (some fn),
           SCall.createFile fn (newProjectDataOf emptyCreateBody)]⟩ :=
  create_without_title_untitled sampleStore emptyCreateBody (Or.inl rfl)

/-- C7: `applyPatch` and `applyFile` are atomic at their call sites:
the patch handler either fully succeeds — status 200 and the active
model becomes the merge of exactly the provided fields — or leaves the
prior store unchanged; the load handler either fully succeeds — the
parsed model is installed and the load recorded — or leaves the prior
store unchanged. -/
theorem applyPatch_applyFile_atomic (valid : DatabaseModel → Bool)
    (parse : Name → Except Err DatabaseModel) (s : Store) (b : PatchBody)
    (f : Name) :
    (∀ r, patchPartialProjectFile valid s b = Except.ok r →
      (r.resp.status = 200 ∧
        r.store = { s with activeModel := mergePatch b s.activeModel }) ∨
      r.store = s) ∧
    (∀ r, loadProject parse s f = Except.ok r →
      (∃ m, parse f = Except.ok m ∧ r.resp.status = 201 ∧
        r.store = { s with activeModel := m, appState := ⟨some f⟩ }) ∨
      r.store = s) := by
  constructor
  · intro r hr
    unfold patchPartialProjectFile at hr
    split at hr
    · cases hr
      exact Or.inr rfl
    · split at hr
      · rename_i newData heq
        cases hr
        unfold applyDataModel at heq
        split at heq
        · cases heq
          exact Or.inl ⟨rfl, rfl⟩
        · cases heq
      · cases hr
        exact Or.inr rfl
  · intro r hr
    unfold loadProject at hr
    split at hr
    · split at hr
      · rename_i s2 heq
        cases hr
        unfold applyProjectFile at heq
        split at heq
        · cases heq
        · rename_i m hparse
          cases heq
          exact Or.inl ⟨m, hparse, rfl, rfl⟩
      · cases hr
        exact Or.inr rfl
    · cases hr
      exact Or.inr rfl

/-- The response the patch handler produces when validation fails on
the sample inputs; used to instantiate the atomicity theorem. -/
def failPatchResult : HResult :=
  ⟨⟨400, Body.message msgMergeInvalid⟩, sampleStore, [SCall.applyData onePatch]⟩

/-- C7 witness: a failing patch on the sample store leaves the store
unchanged. -/
theorem applyPatch_applyFile_atomic_witness :
    (failPatchResult.resp.status = 200 ∧
      failPatchResult.store =
        { sampleStore with activeModel := mergePatch onePatch sampleStore.activeModel }) ∨
    failPatchResult.store = sampleStore :=
  (applyPatch_applyFile_atomic (fun _ => false)
    (fun _ => Except.error ⟨msgFileNotFound⟩) sampleStore onePatch nmShowJson).1
    failPatchResult rfl

/-- C10: the download handler resolves the requested file in the db
directory — never the projects directory — for every request; without
a filename the loaded project's title is used; and the 404 decision is
exactly non-existence of that file in the db directory. -/
theorem download_resolves_in_db_directory (dl : Except Err Unit) (s : Store)
    (fn : Option Name) :
    (selectProjectFile s fn).1.dir = resolveDbDirectory ∧
    (selectProjectFile s fn).1.dir ≠ resolveProjectsDirectory ∧
    (selectProjectFile s fn).1.file = (selectProjectFile s fn).2 ∧
    (fn = none → (selectProjectFile s fn).2 = getProjectTitle s) ∧
    ∃ r, projectDownload dl s fn = Except.ok r ∧
      ((r.resp.status = 404) ↔ (selectProjectFile s fn).2 ∉ s.dbFiles) := by
  have hsel : existsSync s (selectProjectFile s fn).1
      = decide ((selectProjectFile s fn).2 ∈ s.dbFiles) := rfl
  refine ⟨rfl, fun hc => Dir.noConfusion hc, rfl, fun h => by rw [h]; rfl, ?_⟩
  by_cases hm : (selectProjectFile s fn).2 ∈ s.dbFiles
  · have hex : existsSync s (selectProjectFile s fn).1 = true := by
      rw [hsel, decide_eq_true_eq]
      exact hm
    cases dl with
    | ok u =>
        refine ⟨⟨⟨200, Body.fileBody (selectProjectFile s fn).1
          (selectProjectFile s fn).2⟩, s, []⟩, ?_, by simp [hm]⟩
        unfold projectDownload
        dsimp only
        rw [hex]
        rfl
    | error e =>
        refine ⟨⟨⟨500, Body.message (getErrorMessage e)⟩, s, []⟩, ?_, by simp [hm]⟩
        unfold projectDownload
        dsimp only
        rw [hex]
        rfl
  · have hex : existsSync s (selectProjectFile s fn).1 = false := by
      rw [hsel, decide_eq_false_iff_not]
      exact hm
    refine ⟨⟨⟨404, Body.message (msgProject ++ (selectProjectFile s fn).2 ++
      msgNotFoundDot)⟩, s, []⟩, ?_, by simp [hm]⟩
    unfold projectDownload
    dsimp only
    rw [hex]
    rfl

/-- C10 witness: downloading with no filename from the sample store. -/
theorem download_resolves_in_db_directory_witness :
    (selectProjectFile sampleStore none).2 = getProjectTitle sampleStore ∧
    ∃ r, projectDownload (Except.ok ()) sampleStore none = Except.ok r ∧
      ((r.resp.status = 404) ↔ (selectProjectFile sampleStore none).2 ∉ sampleStore.dbFiles) :=
  ⟨(download_resolves_in_db_directory (Except.ok ()) sampleStore none).2.2.2.1 rfl,
   (download_resolves_in_db_directory (Except.ok ()) sampleStore none).2.2.2.2⟩

theorem boundaryOk_patch (valid : DatabaseModel → Bool) (s : Store) (pb : PatchBody) :
    boundaryOk (patchPartialProjectFile valid s pb) = true := by
  unfold patchPartialProjectFile
  repeat' split
  all_goals rfl

theorem boundaryOk_create (s : Store) (cb : CreateBody) :
    boundaryOk (createProjectFile s cb) = true := by
  unfold createProjectFile
  dsimp only
  repeat' split
  all_goals rfl

theorem boundaryOk_download (dl : Except Err Unit) (s : Store) (fn : Option Name) :
    boundaryOk (projectDownload dl s fn) = true := by
  unfold projectDownload
  dsimp only
  repeat' split
  all_goals rfl

theorem boundaryOk_post (parse : Name → Except Err DatabaseModel) (s : Store)
    (file : Option (Name × Name)) :
    boundaryOk (postProjectFile parse s file) = true := by
  unfold postProjectFile
  dsimp only
  repeat' split
  all_goals rfl

theorem boundaryOk_list (listSvc : Except Err (List Name)) (s : Store) :
    boundaryOk (listProjects listSvc s) = true := by
  unfold listProjects
  repeat' split
  all_goals rfl

theorem boundaryOk_load (parse : Name → Except Err DatabaseModel) (s : Store)
    (f : Name) : boundaryOk (loadProject parse s f) = true := by
  unfold loadProject
  repeat' split
  all_goals rfl

theorem boundaryOk_duplicate (s : Store) (oldName newName : Name) :
    boundaryOk (duplicateProjectFile s oldName newName) = true := by
  unfold duplicateProjectFile
  dsimp only
  repeat' split
  all_goals rfl

theorem boundaryOk_rename (s : Store) (oldName newName : Name) :
    boundaryOk (renameProjectFile s oldName newName) = true := by
  unfold renameProjectFile
  dsimp only
  repeat' split
  all_goals rfl

theorem boundaryOk_delete (s : Store) (f : Name) :
    boundaryOk (deleteProjectFile s f) = true := by
  unfold deleteProjectFile
  dsimp only
  repeat' split
  all_goals rfl

/-- C3 counterexample: the info handler has no catch; when its service
fails, the exception escapes the handler and no response carrying a
message body is sent — refuting, at this concrete input, that every
handler catches at its own boundary. -/
theorem getInfo_failure_escapes :
    getInfo (Except.error ⟨msgNotFoundErr⟩) sampleStore =
      Except.error ⟨msgNotFoundErr⟩ ∧
    escapedError (getInfo (Except.error ⟨msgNotFoundErr⟩) sampleStore) = true ∧
    boundaryOk (getInfo (Except.error ⟨msgNotFoundErr⟩) sampleStore) = false :=
  ⟨rfl, rfl, rfl⟩

/-- C3 (amended): every handler except `getInfo` catches at its own
boundary — whatever the service outcomes, it sends a response, and
every failure status (>= 400) carries a message body; `getInfo` has no
catch, so a failing info service escapes it without a response. -/
theorem handlers_catch_at_boundary (valid : DatabaseModel → Bool)
    (parse : Name → Except Err DatabaseModel) (dl : Except Err Unit)
    (listSvc : Except Err (List Name)) (s : Store) (pb : PatchBody)
    (cb : CreateBody) (fn : Option Name) (file : Option (Name × Name))
    (f oldName newName : Name) (e : Err) :
    boundaryOk (patchPartialProjectFile valid s pb) = true ∧
    boundaryOk (createProjectFile s cb) = true ∧
    boundaryOk (projectDownload dl s fn) = true ∧
    boundaryOk (postProjectFile parse s file) = true ∧
    boundaryOk (listProjects listSvc s) = true ∧
    boundaryOk (loadProject parse s f) = true ∧
    boundaryOk (duplicateProjectFile s oldName newName) = true ∧
    boundaryOk (renameProjectFile s oldName newName) = true ∧
    boundaryOk (deleteProjectFile s f) = true ∧
    getInfo (Except.error e) s = Except.error e :=
  ⟨boundaryOk_patch valid s pb, boundaryOk_create s cb, boundaryOk_download dl s fn,
   boundaryOk_post parse s file, boundaryOk_list listSvc s, boundaryOk_load parse s f,
   boundaryOk_duplicate s oldName newName, boundaryOk_rename s oldName newName,
   boundaryOk_delete s f, rfl⟩

end Ontime
